import Mathlib

/-!
Verification development for the video-service job pipeline.

The definitions below are a shallow embedding of the Python sources
`src/video-service/app/routes.py`, `src/video-service/app/processor.py` and
`src/video-service/app/celery_app.py`: pure Lean functions mirroring the
control flow of `upload_video`, `get_status`, `download_video`,
`process_video`, `publish_video_event` and `process_video_task`.  External
collaborators (database, Redis cache, RabbitMQ, ffmpeg, the filesystem) are
modelled by explicit parameters (the list of persisted rows, availability
flags, a conversion-success flag) and by an `Effect` trace recording, in
program order, the side effects each routine performs.
-/

namespace VideoService

/-! ## A model of the `pathlib` path operations used by the code -/

/-- Components obtained by splitting a character list at every slash (the
way `pathlib` decomposes a POSIX path string into candidate parts). -/
def splitSlash : List Char → List (List Char)
  | [] => [[]]
  | c :: cs =>
    if c = '/' then [] :: splitSlash cs
    else (c :: (splitSlash cs).headD []) :: (splitSlash cs).tail

/-- Path components as `pathlib` keeps them: empty components (from repeated
or leading slashes) and single-dot components are dropped; `..` is kept. -/
def pyParts (s : List Char) : List (List Char) :=
  (splitSlash s).filter (fun p => !(p.isEmpty || p == ['.']))

/-- Model of `pathlib.PurePath(s).name`: the final retained component, or
empty when there is none. -/
def pyNameChars (s : List Char) : List Char :=
  ((pyParts s).getLast?).getD []

/-- Index of the last dot in a character list (Python's `str.rfind('.')`,
restricted to the found case). -/
def rfindDot (name : List Char) : Option Nat :=
  ((List.range name.length).filter (fun i => name.getD i ' ' == '.')).getLast?

/-- Model of `pathlib.PurePath(s).suffix`: `name[i:]` when the last dot of
the name sits strictly inside it, else empty. -/
def pySuffixChars (s : List Char) : List Char :=
  match rfindDot (pyNameChars s) with
  | some i =>
    if 0 < i ∧ i + 1 < (pyNameChars s).length then (pyNameChars s).drop i else []
  | none => []

/-- Model of `pathlib.PurePath(s).stem`: the name with its suffix removed. -/
def pyStemChars (s : List Char) : List Char :=
  match rfindDot (pyNameChars s) with
  | some i =>
    if 0 < i ∧ i + 1 < (pyNameChars s).length then (pyNameChars s).take i else pyNameChars s
  | none => pyNameChars s

/-- Python's `str.lower()` on a character list. -/
def pyLower (s : List Char) : List Char := s.map Char.toLower

/-- String-level wrapper for `pathlib.PurePath(s).name`. -/
def pyName (s : String) : String := ⟨pyNameChars s.data⟩

/-- String-level wrapper for `pathlib.PurePath(s).stem`. -/
def pyStem (s : String) : String := ⟨pyStemChars s.data⟩

/-- The code's `tmp_path.suffix.lower()` / `Path(m).suffix.lower()`. -/
def pySuffixLower (s : String) : List Char := pyLower (pySuffixChars s.data)

/-- Model of `os.path.join(a, b)` (also `Path(a) / b`) for the shapes the
code produces: `b` wins when absolute, otherwise a slash is inserted. -/
def osPathJoin (a b : String) : String :=
  if b.data.head? = some '/' then b else a ++ "/" ++ b

/-! ## Constants from `routes.py` and `processor.py` -/

def UPLOAD_DIR : String := "uploads"

def PROCESSED_DIR : String := "processed"

/-- The allow-list `ALLOWED_VIDEO_EXTENSIONS` of `routes.py`, as character
lists so membership tests mirror `Path(m).suffix.lower() in ...`. -/
def ALLOWED_VIDEO_EXTENSIONS : List (List Char) :=
  [".mp4".data, ".mov".data, ".mkv".data, ".avi".data, ".webm".data]

/-- The member filter of `upload_video`:
`Path(m).suffix.lower() in ALLOWED_VIDEO_EXTENSIONS`. -/
def allowedName (f : String) : Bool :=
  ALLOWED_VIDEO_EXTENSIONS.contains (pySuffixLower f)

/-- The archive test of `upload_video`: `tmp_path.suffix.lower() == ".zip"`. -/
def isZipName (f : String) : Bool := pySuffixLower f == ".zip".data

def STATUS_CACHE_TTL_SECONDS : Nat := 120

/-! ## Data model -/

/-- A row of the `users` table (`shared.models.User`), as used here. -/
structure User where
  id : Nat
  username : String
  deriving Repr, DecidableEq

/-- A row of the `videos` table (`shared.models.Video`), as used here:
`upload_video` sets `filename` and `user_id`, the worker mutates `status`. -/
structure Video where
  id : Nat
  filename : String
  userId : Nat
  status : String
  deriving Repr, DecidableEq

/-- Modelled from the spec: `shared/models.py` (the `Video` ORM model and its
`status` column default) is not under `src/`.  Spec §3 and §4.1 say a job is
created in state `queued`, `upload_video` answers `{"status": "queued"}`, and
the integration test asserts that answer, so the default is `"queued"`. -/
def VIDEO_INITIAL_STATUS : String := "queued"

/-- One observable side effect, recorded in program order. -/
inductive Effect where
  | storeCommit (v : Video)
  | cacheInvalidate (username : String)
  | cacheSet (username : String)
  | enqueue (videoId : Nat)
  | convertRun (inputPath outputPath : String)
  | publish (eventType : String) (videoId : Nat) (userId : Nat) (errDetail : Option String)
  deriving Repr, DecidableEq

/-! ## Submission path (`upload_video` in `routes.py`) -/

/-- An uploaded artifact: its client-supplied filename, and — relevant only
when the name ends in `.zip` — its content seen as an archive: `none` when
`zipfile.ZipFile` raises `BadZipFile`, `some names` for a readable archive
with member list `names` (the order of `namelist()`). -/
structure Upload where
  filename : String
  zipContent : Option (List String)
  deriving Repr, DecidableEq

/-- The distinct failure answers of `upload_video`. -/
inductive UploadError where
  | userNotFound
  | invalidZip
  | zipNoVideo
  | unsupportedFormat
  deriving Repr, DecidableEq

/-- The validation part of `upload_video` (lines 86–104 of `routes.py`):
decides the final stored filename or the 400-error raised. -/
def validateUpload (up : Upload) : Except UploadError String :=
  if isZipName up.filename then
    match up.zipContent with
    | none => .error .invalidZip
    | some names =>
      match names.filter allowedName with
      | [] => .error .zipNoVideo
      | m :: _ => .ok (pyName m)
  else if !allowedName up.filename then .error .unsupportedFormat
  else .ok up.filename

/-- The archive member `upload_video` extracts: the first member of
`namelist()` whose suffix is allowed, when the artifact is a readable zip. -/
def extractedMember (up : Upload) : Option String :=
  if isZipName up.filename then
    up.zipContent.bind (fun names => (names.filter allowedName).head?)
  else none

/-- The extraction target of `upload_video`: `UPLOAD_DIR / Path(member).name`. -/
def extractionTargetPath (member : String) : String :=
  osPathJoin UPLOAD_DIR (pyName member)

/-- The extraction target as path components, for reasoning about where the
write lands. -/
def extractionTargetComps (member : String) : List (List Char) :=
  [UPLOAD_DIR.data, pyNameChars member.data]

deriving instance DecidableEq for Except

/-- Result of one `upload_video` call: the HTTP-level answer, the resulting
`videos` table, the side effects in order, and the member extracted. -/
structure UploadOutcome where
  response : Except UploadError (Nat × String)
  store : List Video
  effects : List Effect
  extracted : Option String
  deriving Repr, DecidableEq

/-- Shallow embedding of `upload_video` (lines 71–117 of `routes.py`).
`cacheUp` tells whether Redis answers (`_invalidate_status_cache` swallows
its errors); `nextId` is the id the database assigns to the inserted row. -/
def upload_video (cacheUp : Bool) (users : List User) (videos : List Video)
    (current_user : String) (up : Upload) (nextId : Nat) : UploadOutcome :=
  match users.find? (fun u => u.username == current_user) with
  | none => ⟨.error .userNotFound, videos, [], none⟩
  | some user =>
    match validateUpload up with
    | .error e => ⟨.error e, videos, [], none⟩
    | .ok finalName =>
      let v : Video := ⟨nextId, finalName, user.id, VIDEO_INITIAL_STATUS⟩
      ⟨.ok (v.id, "queued"), videos ++ [v],
        [Effect.storeCommit v]
          ++ (if cacheUp then [Effect.cacheInvalidate current_user] else [])
          ++ [Effect.enqueue v.id],
        extractedMember up⟩

/-! ## Status read path (`get_status` in `routes.py`) -/

/-- One entry of the `/status` answer: `{"id": ..., "filename": ..., "status": ...}`. -/
structure Summary where
  id : Nat
  filename : String
  status : String
  deriving Repr, DecidableEq

/-- The fresh-from-store answer for a user id. -/
def summariesFor (videos : List Video) (userId : Nat) : List Summary :=
  (videos.filter (fun v => v.userId == userId)).map (fun v => ⟨v.id, v.filename, v.status⟩)

/-- Shallow embedding of `get_status` (lines 119–130 of `routes.py`).
`cacheUp = false` makes both `_get_cached_status` (caught, answers `None`)
and `_set_cached_status` (caught, no-op) fail; `cached` is the entry Redis
would hold.  Answers `none` only on the code's unhandled crash (no user
row). -/
def get_status (cacheUp : Bool) (cached : Option (List Summary)) (users : List User)
    (videos : List Video) (current_user : String) : Option (List Summary × List Effect) :=
  let hit := if cacheUp then cached else none
  match hit with
  | some data => some (data, [])
  | none =>
    match users.find? (fun u => u.username == current_user) with
    | none => none
    | some user =>
      let resp := summariesFor videos user.id
      some (resp, if cacheUp then [Effect.cacheSet current_user] else [])

/-! ## Worker (`process_video` and `publish_video_event` in `processor.py`,
`process_video_task` in `celery_app.py`) -/

/-- Embedding of `publish_video_event`: the publish lands only when the
broker is reachable; a failure is caught and swallowed (lines 61–76). -/
def publish_video_event (busUp : Bool) (eventType : String) (videoId userId : Nat)
    (errDetail : Option String) : List Effect :=
  if busUp then [Effect.publish eventType videoId userId errDetail] else []

/-- Embedding of the worker-side `_invalidate_status_cache` (lines 23–29 of
`processor.py`): looks up the owner through `video.user`, deletes the cache
key when Redis answers, swallows any error. -/
def workerInvalidateCache (cacheUp : Bool) (users : List User) (v : Video) : List Effect :=
  match users.find? (fun u => u.id == v.userId) with
  | none => []
  | some u => if cacheUp then [Effect.cacheInvalidate u.username] else []

/-- The input path the worker converts from:
`os.path.join(UPLOAD_DIR, video.filename)`. -/
def workerInputPath (filename : String) : String := osPathJoin UPLOAD_DIR filename

/-- The worker's output path: `os.path.join(PROCESSED_DIR, f"{id}_converted.mp4")`. -/
def workerOutputPath (videoId : Nat) : String :=
  osPathJoin PROCESSED_DIR (toString videoId ++ "_converted.mp4")

/-- Shallow embedding of `process_video` (lines 31–59 of `processor.py`).
`convertOk` is whether the opaque `ffmpeg ... run()` call succeeds and
`errMsg` the `str(e)` it raises with otherwise; the answer is the resulting
`videos` table and the effect trace in program order.  Note the source has
no terminal-state check and no `processing` status: any found row goes
straight through conversion to `completed` or `error`. -/
def process_video (videos : List Video) (users : List User) (videoId : Nat)
    (convertOk : Bool) (errMsg : String) (cacheUp busUp : Bool) :
    List Video × List Effect :=
  match videos.find? (fun v => v.id == videoId) with
  | none => (videos, [])
  | some v =>
    let attempt := Effect.convertRun (workerInputPath v.filename) (workerOutputPath videoId)
    if convertOk then
      let v' : Video := { v with status := "completed" }
      (videos.map (fun w => if w.id == videoId then v' else w),
        attempt :: Effect.storeCommit v' :: workerInvalidateCache cacheUp users v'
          ++ publish_video_event busUp "video.completed" videoId v.userId none)
    else
      let v' : Video := { v with status := "error" }
      (videos.map (fun w => if w.id == videoId then v' else w),
        attempt :: Effect.storeCommit v' :: workerInvalidateCache cacheUp users v'
          ++ publish_video_event busUp "video.error" videoId v.userId (some errMsg))

/-- Result of one `process_video_task` run: the new table, the effects, a
scheduled `self.retry` countdown when one was requested, and the task's
normal return value. -/
structure TaskOutcome where
  store : List Video
  effects : List Effect
  retryCountdown : Option Nat
  result : Option (String × Nat)
  deriving Repr, DecidableEq

/-- Shallow embedding of `process_video_task` (lines 79–87 of
`celery_app.py`).  The task calls `process_video` and answers
`{"status": "completed", "video_id": id}`; its `except` branch with
`self.retry(exc=e, countdown=60)` would run only if `process_video` raised,
and the embedded `process_video` is total — `processor.py` catches
conversion errors internally — so no retry is ever scheduled here. -/
def process_video_task (videos : List Video) (users : List User) (videoId : Nat)
    (convertOk : Bool) (errMsg : String) (cacheUp busUp : Bool) : TaskOutcome :=
  let r := process_video videos users videoId convertOk errMsg cacheUp busUp
  ⟨r.1, r.2, none, some ("completed", videoId)⟩

/-! ## Download path (`download_video` in `routes.py`) -/

/-- Result of one `download_video` call.  `httpError` carries the status
code and the `detail` string of the raised `HTTPException`; `pyError` marks
the source's unhandled `AttributeError` when `video.user` is missing;
`ok` carries the archive name served and the entry name inside it. -/
inductive DownloadResult where
  | httpError (code : Nat) (detail : String)
  | pyError
  | ok (archiveName entryName : String)
  deriving Repr, DecidableEq

/-- Shallow embedding of `download_video` (lines 132–148 of `routes.py`).
`convertedExists` is whether `processed/{id}_converted.mp4` is on disk.
The single guard
`if not video or video.user.username != current_user or video.status != "completed"`
raises one and the same 404 for all three causes. -/
def download_video (videos : List Video) (users : List User) (convertedExists : Bool)
    (videoId : Nat) (current_user : String) : DownloadResult :=
  match videos.find? (fun v => v.id == videoId) with
  | none => .httpError 404 "Video not found or not ready"
  | some v =>
    match users.find? (fun u => u.id == v.userId) with
    | none => .pyError
    | some u =>
      if u.username ≠ current_user then .httpError 404 "Video not found or not ready"
      else if v.status ≠ "completed" then .httpError 404 "Video not found or not ready"
      else if !convertedExists then .httpError 404 "Converted file missing"
      else .ok (pyStem v.filename ++ "_converted.zip") (pyStem v.filename ++ "_converted.mp4")

/-! ## Path normalisation, for the extraction-safety claim -/

/-- Resolution of a component list the way a filesystem would: empty and
single-dot components vanish, `..` pops the last kept component. -/
def normAux : List (List Char) → List (List Char) → List (List Char)
  | stack, [] => stack.reverse
  | stack, c :: cs =>
    if c = [] then normAux stack cs
    else if c = ['.'] then normAux stack cs
    else if c = ['.', '.'] then normAux stack.tail cs
    else normAux (c :: stack) cs

/-- Normal form of a path given as components. -/
def normPath (comps : List (List Char)) : List (List Char) := normAux [] comps

/-! ## Trace observations -/

/-- Recognises a cache-invalidation effect. -/
def isInvalidateEffect : Effect → Bool
  | .cacheInvalidate _ => true
  | _ => false

/-- The status a store-commit effect writes for the given job, when it is
one. -/
def commitStatusFor (videoId : Nat) : Effect → Option String
  | .storeCommit v => if v.id == videoId then some v.status else none
  | _ => none

/-- The sequence of states a job is observed in across one run: its state in
the initial store followed by the state of every commit for it in the
effect trace. -/
def observedStatuses (initial : List Video) (effs : List Effect) (videoId : Nat) :
    List String :=
  ((initial.find? (fun v => v.id == videoId)).map Video.status).toList
    ++ effs.filterMap (commitStatusFor videoId)

/-! ## Helper lemmas -/

/-- A row appended behind rows whose ids all differ from its own is the one
`find?` by that id resolves to. -/
theorem find?_append_fresh (videos : List Video) (v : Video)
    (h : ∀ w ∈ videos, w.id ≠ v.id) :
    (videos ++ [v]).find? (fun w => w.id == v.id) = some v := by
  induction videos with
  | nil => simp [List.find?]
  | cons a as ih =>
    have ha : ((fun w => w.id == v.id) a) = false := by
      simpa using h a (by simp)
    rw [List.cons_append, List.find?_cons_of_neg _ (by simp [ha])]
    exact ih (fun w hw => h w (by simp [hw]))

/-- Updating the row `find?` resolves to, by a row with the same id, makes
`find?` resolve to the update. -/
theorem find?_map_update (videos : List Video) (videoId : Nat) (v v' : Video)
    (hv : videos.find? (fun w => w.id == videoId) = some v) (hid : v'.id = videoId) :
    (videos.map (fun w => if w.id == videoId then v' else w)).find?
      (fun w => w.id == videoId) = some v' := by
  induction videos with
  | nil => simp at hv
  | cons a as ih =>
    by_cases h : (a.id == videoId) = true
    · simp only [List.map_cons, h, if_true]
      exact @List.find?_cons_of_pos _ (fun w => w.id == videoId) v' _ (by simp [hid])
    · rw [@List.find?_cons_of_neg _ (fun w => w.id == videoId) a as h] at hv
      simp only [List.map_cons, h, Bool.false_eq_true, if_false]
      rw [@List.find?_cons_of_neg _ (fun w => w.id == videoId) a
        (as.map (fun w => if w.id == videoId then v' else w)) h]
      exact ih hv

example : pyName "a/b.mp4" = "b.mp4" := by decide
example : pyName "../../etc/passwd" = "passwd" := by decide
example : pySuffixLower "dir/VIDEO.MP4" = ".mp4".data := by decide
example : pySuffixLower "archive.ZIP" = ".zip".data := by decide
example : pyName "a/.." = ".." := by decide
example : pySuffixLower "a/.." = [] := by decide
example : pyStem "clip.mp4" = "clip" := by decide
example : allowedName "x/y/movie.webm" = true := by decide
example : allowedName "notes.txt" = false := by decide
example : normPath ["uploads".data, "b.mp4".data] = ["uploads".data, "b.mp4".data] := by decide

/-! ## Claim theorems -/

/-- C10: for every job id that does not resolve to a record in the store,
`process_video` returns normally with no state change, no cache
invalidation, no conversion and no event, and the enclosing
`process_video_task` reports success and schedules no retry. -/
theorem missing_job_noop (videos : List Video) (users : List User) (videoId : Nat)
    (convertOk : Bool) (errMsg : String) (cacheUp busUp : Bool)
    (h : videos.find? (fun v => v.id == videoId) = none) :
    process_video videos users videoId convertOk errMsg cacheUp busUp = (videos, []) ∧
    process_video_task videos users videoId convertOk errMsg cacheUp busUp =
      ⟨videos, [], none, some ("completed", videoId)⟩ := by
  constructor
  · simp [process_video, h]
  · simp [process_video_task, process_video, h]

theorem missing_job_noop_witness :
    ([⟨1, "a.mp4", 1, "queued"⟩] : List Video).find? (fun v => v.id == 2) = none ∧
    process_video [⟨1, "a.mp4", 1, "queued"⟩] [⟨1, "alice"⟩] 2 true "" true true
      = ([⟨1, "a.mp4", 1, "queued"⟩], []) ∧
    process_video_task [⟨1, "a.mp4", 1, "queued"⟩] [⟨1, "alice"⟩] 2 true "" true true
      = ⟨[⟨1, "a.mp4", 1, "queued"⟩], [], none, some ("completed", 2)⟩ := by
  refine ⟨by decide, ?_⟩
  exact missing_job_noop [⟨1, "a.mp4", 1, "queued"⟩] [⟨1, "alice"⟩] 2 true "" true true (by decide)

/-- C8: a download request for a job that is absent from the store, owned by
a different principal, or not in state `completed` always produces one and
the same 404 answer, so the caller cannot tell the three causes apart. -/
theorem download_rejections_uniform (videos : List Video) (users : List User)
    (convertedExists : Bool) (videoId : Nat) (current_user : String)
    (h : videos.find? (fun v => v.id == videoId) = none
      ∨ (∃ v u, videos.find? (fun w => w.id == videoId) = some v
          ∧ users.find? (fun w => w.id == v.userId) = some u ∧ u.username ≠ current_user)
      ∨ (∃ v u, videos.find? (fun w => w.id == videoId) = some v
          ∧ users.find? (fun w => w.id == v.userId) = some u ∧ u.username = current_user
          ∧ v.status ≠ "completed")) :
    download_video videos users convertedExists videoId current_user =
      .httpError 404 "Video not found or not ready" := by
  rcases h with h | ⟨v, u, hv, hu, hne⟩ | ⟨v, u, hv, hu, heq, hs⟩
  · simp [download_video, h]
  · simp [download_video, hv, hu, hne]
  · simp [download_video, hv, hu, heq, hs]

theorem download_rejections_uniform_witness :
    (([⟨1, "a.mp4", 1, "queued"⟩] : List Video).find? (fun v => v.id == 9) = none
      ∨ (∃ v u, ([⟨1, "a.mp4", 1, "queued"⟩] : List Video).find? (fun w => w.id == 9) = some v
          ∧ ([⟨1, "alice"⟩] : List User).find? (fun w => w.id == v.userId) = some u
          ∧ u.username ≠ "alice")
      ∨ (∃ v u, ([⟨1, "a.mp4", 1, "queued"⟩] : List Video).find? (fun w => w.id == 9) = some v
          ∧ ([⟨1, "alice"⟩] : List User).find? (fun w => w.id == v.userId) = some u
          ∧ u.username = "alice" ∧ v.status ≠ "completed")) ∧
    download_video [⟨1, "a.mp4", 1, "queued"⟩] [⟨1, "alice"⟩] true 9 "alice"
      = .httpError 404 "Video not found or not ready" := by
  refine ⟨Or.inl (by decide), ?_⟩
  exact download_rejections_uniform [⟨1, "a.mp4", 1, "queued"⟩] [⟨1, "alice"⟩] true 9 "alice"
    (Or.inl (by decide))

/-- C5: on a successful submission the new row is committed in state
`queued`, the principal's cache entry is invalidated, and only then is the
job id enqueued — the effect trace is exactly commit, invalidate, enqueue in
that order — and the call answers the job id with status `"queued"`; with
the id fresh, the enqueued id resolves in the resulting store. -/
theorem store_write_precedes_enqueue (users : List User) (videos : List Video)
    (current_user : String) (up : Upload) (nextId : Nat) (user : User) (finalName : String)
    (hu : users.find? (fun u => u.username == current_user) = some user)
    (hval : validateUpload up = .ok finalName)
    (hfresh : ∀ w ∈ videos, w.id ≠ nextId) :
    (upload_video true users videos current_user up nextId).response = .ok (nextId, "queued") ∧
    (upload_video true users videos current_user up nextId).store
      = videos ++ [⟨nextId, finalName, user.id, "queued"⟩] ∧
    (upload_video true users videos current_user up nextId).effects
      = [Effect.storeCommit ⟨nextId, finalName, user.id, "queued"⟩,
         Effect.cacheInvalidate current_user,
         Effect.enqueue nextId] ∧
    ((upload_video true users videos current_user up nextId).store.find?
        (fun w => w.id == nextId)) = some ⟨nextId, finalName, user.id, "queued"⟩ := by
  have hstore : (upload_video true users videos current_user up nextId).store
      = videos ++ [⟨nextId, finalName, user.id, "queued"⟩] := by
    simp [upload_video, hu, hval, VIDEO_INITIAL_STATUS]
  refine ⟨by simp [upload_video, hu, hval, VIDEO_INITIAL_STATUS], hstore,
    by simp [upload_video, hu, hval, VIDEO_INITIAL_STATUS], ?_⟩
  rw [hstore]
  exact find?_append_fresh videos ⟨nextId, finalName, user.id, "queued"⟩ hfresh

theorem store_write_precedes_enqueue_witness :
    (([⟨1, "alice"⟩] : List User).find? (fun u => u.username == "alice") = some ⟨1, "alice"⟩
      ∧ validateUpload ⟨"clip.mp4", none⟩ = .ok "clip.mp4"
      ∧ ∀ w ∈ ([] : List Video), w.id ≠ 5) ∧
    (upload_video true [⟨1, "alice"⟩] [] "alice" ⟨"clip.mp4", none⟩ 5).response
      = .ok (5, "queued") ∧
    (upload_video true [⟨1, "alice"⟩] [] "alice" ⟨"clip.mp4", none⟩ 5).store
      = [⟨5, "clip.mp4", 1, "queued"⟩] ∧
    (upload_video true [⟨1, "alice"⟩] [] "alice" ⟨"clip.mp4", none⟩ 5).effects
      = [Effect.storeCommit ⟨5, "clip.mp4", 1, "queued"⟩,
         Effect.cacheInvalidate "alice", Effect.enqueue 5] ∧
    ((upload_video true [⟨1, "alice"⟩] [] "alice" ⟨"clip.mp4", none⟩ 5).store.find?
        (fun w => w.id == 5)) = some ⟨5, "clip.mp4", 1, "queued"⟩ := by
  refine ⟨⟨by decide, by decide, by decide⟩, ?_⟩
  have h := store_write_precedes_enqueue [⟨1, "alice"⟩] [] "alice" ⟨"clip.mp4", none⟩ 5
    ⟨1, "alice"⟩ "clip.mp4" (by decide) (by decide) (by decide)
  simpa using h

/-- C6: unavailability of the cache or the event bus never fails the
primary operation: a cache failure during a status read degrades to the
store-backed answer, a cache failure during upload changes neither the
response nor the store, and an event-bus failure changes neither the
worker's resulting store nor the cache invalidation it performs. -/
theorem dependency_failure_nonfatal (cached : Option (List Summary)) (users : List User)
    (videos : List Video) (current_user : String) (up : Upload) (nextId : Nat)
    (videoId : Nat) (convertOk : Bool) (errMsg : String) (cacheUp : Bool) :
    ((get_status false cached users videos current_user).map Prod.fst
      = (get_status true none users videos current_user).map Prod.fst)
    ∧ ((upload_video false users videos current_user up nextId).response
      = (upload_video true users videos current_user up nextId).response)
    ∧ ((upload_video false users videos current_user up nextId).store
      = (upload_video true users videos current_user up nextId).store)
    ∧ ((process_video videos users videoId convertOk errMsg cacheUp false).1
      = (process_video videos users videoId convertOk errMsg cacheUp true).1)
    ∧ ((process_video videos users videoId convertOk errMsg cacheUp false).2.filter
          isInvalidateEffect
      = (process_video videos users videoId convertOk errMsg cacheUp true).2.filter
          isInvalidateEffect) := by
  refine ⟨?_, ?_, ?_, ?_, ?_⟩
  · cases hu : users.find? (fun u => u.username == current_user) <;>
      simp [get_status, hu]
  · cases hu : users.find? (fun u => u.username == current_user) with
    | none => simp [upload_video, hu]
    | some user =>
      cases hval : validateUpload up <;> simp [upload_video, hu, hval]
  · cases hu : users.find? (fun u => u.username == current_user) with
    | none => simp [upload_video, hu]
    | some user =>
      cases hval : validateUpload up <;> simp [upload_video, hu, hval]
  · cases hv : videos.find? (fun v => v.id == videoId) with
    | none => simp [process_video, hv]
    | some v => cases convertOk <;> simp [process_video, hv]
  · cases hv : videos.find? (fun v => v.id == videoId) with
    | none => simp [process_video, hv]
    | some v =>
      cases convertOk <;>
        simp [process_video, hv, publish_video_event, isInvalidateEffect,
          List.filter_append]

/-- C1 (amended): a conversion failure is not retried — on the very first
failed attempt the job transitions to `error` with the failure detail in
the published `video.error` event, and the enclosing queue task reports
success and schedules no retry (its 60-second `self.retry` fires only when
`process_video` itself raises, which a conversion failure does not). -/
theorem conversion_failure_immediate_error (videos : List Video) (users : List User)
    (videoId : Nat) (v : Video) (errMsg : String) (cacheUp : Bool)
    (hv : videos.find? (fun w => w.id == videoId) = some v) :
    (process_video_task videos users videoId false errMsg cacheUp true).retryCountdown
      = none ∧
    (process_video_task videos users videoId false errMsg cacheUp true).result
      = some ("completed", videoId) ∧
    ((process_video_task videos users videoId false errMsg cacheUp true).store.find?
        (fun w => w.id == videoId)).map Video.status = some "error" ∧
    Effect.publish "video.error" videoId v.userId (some errMsg)
      ∈ (process_video_task videos users videoId false errMsg cacheUp true).effects := by
  have hid : ({ v with status := "error" } : Video).id = videoId := by
    have := List.find?_some hv
    simpa using this
  have hfind := find?_map_update videos videoId v { v with status := "error" } hv hid
  have hstore : (process_video_task videos users videoId false errMsg cacheUp true).store
      = videos.map (fun w => if w.id == videoId then { v with status := "error" } else w) := by
    simp [process_video_task, process_video, hv]
  refine ⟨rfl, rfl, ?_, ?_⟩
  · rw [hstore, hfind]
    rfl
  · simp [process_video_task, process_video, hv, publish_video_event]

theorem conversion_failure_immediate_error_witness :
    (([⟨1, "a.mp4", 1, "queued"⟩] : List Video).find? (fun w => w.id == 1)
      = some ⟨1, "a.mp4", 1, "queued"⟩) ∧
    (process_video_task [⟨1, "a.mp4", 1, "queued"⟩] [⟨1, "alice"⟩] 1 false "boom" true
        true).retryCountdown = none ∧
    (process_video_task [⟨1, "a.mp4", 1, "queued"⟩] [⟨1, "alice"⟩] 1 false "boom" true
        true).result = some ("completed", 1) ∧
    ((process_video_task [⟨1, "a.mp4", 1, "queued"⟩] [⟨1, "alice"⟩] 1 false "boom" true
        true).store.find? (fun w => w.id == 1)).map Video.status = some "error" ∧
    Effect.publish "video.error" 1 1 (some "boom")
      ∈ (process_video_task [⟨1, "a.mp4", 1, "queued"⟩] [⟨1, "alice"⟩] 1 false "boom"
          true true).effects := by
  refine ⟨by decide, ?_⟩
  exact conversion_failure_immediate_error [⟨1, "a.mp4", 1, "queued"⟩] [⟨1, "alice"⟩] 1
    ⟨1, "a.mp4", 1, "queued"⟩ "boom" true (by decide)

/-- C1 (counterexample): with one `queued` job whose very first conversion
attempt fails, the job is already in state `error` with `video.error`
published, and no retry was scheduled — against the claim that the job
transitions to `error` only after a second attempt, one retry and 60
seconds later. -/
theorem first_failure_already_error_cx :
    ((process_video_task [⟨1, "a.mp4", 1, "queued"⟩] [⟨1, "alice"⟩] 1 false "boom" true
        true).store.find? (fun w => w.id == 1)).map Video.status = some "error" ∧
    Effect.publish "video.error" 1 1 (some "boom")
      ∈ (process_video_task [⟨1, "a.mp4", 1, "queued"⟩] [⟨1, "alice"⟩] 1 false "boom"
          true true).effects ∧
    (process_video_task [⟨1, "a.mp4", 1, "queued"⟩] [⟨1, "alice"⟩] 1 false "boom" true
        true).retryCountdown = none := by
  decide

/-- C2 (amended): `process_video` has no terminal-state check — invoked on
a job already `completed` or `error`, it re-runs the conversion, commits
the resulting terminal status, and publishes the corresponding event
again. -/
theorem terminal_reprocess_runs_conversion (videos : List Video) (users : List User)
    (videoId : Nat) (v : Video) (convertOk : Bool) (errMsg : String) (cacheUp : Bool)
    (hv : videos.find? (fun w => w.id == videoId) = some v)
    (_hterm : v.status = "completed" ∨ v.status = "error") :
    Effect.convertRun (workerInputPath v.filename) (workerOutputPath videoId)
      ∈ (process_video videos users videoId convertOk errMsg cacheUp true).2 ∧
    Effect.storeCommit { v with status := if convertOk then "completed" else "error" }
      ∈ (process_video videos users videoId convertOk errMsg cacheUp true).2 ∧
    Effect.publish (if convertOk then "video.completed" else "video.error") videoId
        v.userId (if convertOk then none else some errMsg)
      ∈ (process_video videos users videoId convertOk errMsg cacheUp true).2 := by
  cases convertOk <;> simp [process_video, hv, publish_video_event]

theorem terminal_reprocess_runs_conversion_witness :
    (([⟨1, "a.mp4", 1, "completed"⟩] : List Video).find? (fun w => w.id == 1)
        = some ⟨1, "a.mp4", 1, "completed"⟩
      ∧ (("completed" : String) = "completed" ∨ ("completed" : String) = "error")) ∧
    Effect.convertRun (workerInputPath "a.mp4") (workerOutputPath 1)
      ∈ (process_video [⟨1, "a.mp4", 1, "completed"⟩] [⟨1, "alice"⟩] 1 true "" true
          true).2 ∧
    Effect.storeCommit ⟨1, "a.mp4", 1, "completed"⟩
      ∈ (process_video [⟨1, "a.mp4", 1, "completed"⟩] [⟨1, "alice"⟩] 1 true "" true
          true).2 ∧
    Effect.publish "video.completed" 1 1 none
      ∈ (process_video [⟨1, "a.mp4", 1, "completed"⟩] [⟨1, "alice"⟩] 1 true "" true
          true).2 := by
  refine ⟨⟨by decide, Or.inl rfl⟩, ?_⟩
  have h := terminal_reprocess_runs_conversion [⟨1, "a.mp4", 1, "completed"⟩]
    [⟨1, "alice"⟩] 1 ⟨1, "a.mp4", 1, "completed"⟩ true "" true (by decide) (Or.inl rfl)
  simpa using h

/-- C2 (counterexample): reprocessing a job already in the terminal state
`error` is not a no-op — the conversion is re-run, a duplicate
`video.completed` event is published, and the job even leaves the terminal
state `error` for `completed`. -/
theorem terminal_reprocess_cx :
    ((process_video [⟨1, "a.mp4", 1, "error"⟩] [⟨1, "alice"⟩] 1 true "" true true).1.find?
        (fun w => w.id == 1)).map Video.status = some "completed" ∧
    Effect.convertRun "uploads/a.mp4" "processed/1_converted.mp4"
      ∈ (process_video [⟨1, "a.mp4", 1, "completed"⟩] [⟨1, "alice"⟩] 1 true "" true
          true).2 ∧
    Effect.publish "video.completed" 1 1 none
      ∈ (process_video [⟨1, "a.mp4", 1, "completed"⟩] [⟨1, "alice"⟩] 1 true "" true
          true).2 := by
  decide

/-- Cache-invalidation effects carry no store commit. -/
theorem filterMap_commit_invalidate (videoId : Nat) (cacheUp : Bool) (users : List User)
    (v : Video) :
    (workerInvalidateCache cacheUp users v).filterMap (commitStatusFor videoId) = [] := by
  unfold workerInvalidateCache
  cases users.find? (fun u => u.id == v.userId) with
  | none => rfl
  | some u => cases cacheUp <;> simp [commitStatusFor]

/-- Publish effects carry no store commit. -/
theorem filterMap_commit_publish (videoId : Nat) (busUp : Bool) (eventType : String)
    (vid userId : Nat) (errDetail : Option String) :
    (publish_video_event busUp eventType vid userId errDetail).filterMap
      (commitStatusFor videoId) = [] := by
  cases busUp <;> simp [publish_video_event, commitStatusFor]

/-- C3 (amended): every row `upload_video` adds to the store is created in
state `queued`, and a worker run on a `queued` job commits exactly one
further state, moving it directly to `completed` on success or `error` on
failure — the observed state sequence is `["queued", terminal]`, with no
intermediate `processing` state. -/
theorem jobs_created_queued_then_direct_terminal (users : List User) (videos : List Video)
    (current_user : String) (up : Upload) (nextId : Nat) (videos2 : List Video)
    (users2 : List User) (videoId : Nat) (v : Video) (convertOk : Bool) (errMsg : String)
    (cacheUp busUp : Bool)
    (hq : v.status = "queued")
    (hv : videos2.find? (fun w => w.id == videoId) = some v) :
    (∀ w ∈ (upload_video true users videos current_user up nextId).store,
        w ∈ videos ∨ w.status = "queued") ∧
    observedStatuses videos2
        (process_video videos2 users2 videoId convertOk errMsg cacheUp busUp).2 videoId
      = ["queued", if convertOk then "completed" else "error"] := by
  constructor
  · intro w hw
    cases hu : users.find? (fun u => u.username == current_user) with
    | none =>
      simp only [upload_video, hu] at hw
      exact Or.inl hw
    | some user =>
      cases hval : validateUpload up with
      | error e =>
        simp only [upload_video, hu, hval] at hw
        exact Or.inl hw
      | ok finalName =>
        simp only [upload_video, hu, hval, List.mem_append, List.mem_singleton] at hw
        rcases hw with hw | hw
        · exact Or.inl hw
        · exact Or.inr (by simp [hw, VIDEO_INITIAL_STATUS])
  · have hbid : (v.id == videoId) = true := by
      have := List.find?_some hv
      simpa using this
    cases convertOk <;>
      simp [observedStatuses, process_video, hv, hq, commitStatusFor, hbid,
        List.filterMap_cons, List.filterMap_append, filterMap_commit_invalidate,
        filterMap_commit_publish]

theorem jobs_created_queued_then_direct_terminal_witness :
    ((("queued" : String) = "queued")
      ∧ ([⟨1, "a.mp4", 1, "queued"⟩] : List Video).find? (fun w => w.id == 1)
          = some ⟨1, "a.mp4", 1, "queued"⟩) ∧
    (∀ w ∈ (upload_video true [⟨1, "alice"⟩] [] "alice" ⟨"b.mp4", none⟩ 5).store,
        w ∈ ([] : List Video) ∨ w.status = "queued") ∧
    observedStatuses [⟨1, "a.mp4", 1, "queued"⟩]
        (process_video [⟨1, "a.mp4", 1, "queued"⟩] [⟨1, "alice"⟩] 1 true "" true true).2 1
      = ["queued", if true then "completed" else "error"] := by
  refine ⟨⟨rfl, by decide⟩, ?_⟩
  exact jobs_created_queued_then_direct_terminal [⟨1, "alice"⟩] [] "alice" ⟨"b.mp4", none⟩
    5 [⟨1, "a.mp4", 1, "queued"⟩] [⟨1, "alice"⟩] 1 ⟨1, "a.mp4", 1, "queued"⟩ true "" true
    true rfl (by decide)

/-- C3 (counterexample): a successful worker run on a `queued` job shows the
state sequence `["queued", "completed"]` — the job is never observed in the
`processing` state the claimed §4.2 machine routes through. -/
theorem no_processing_state_cx :
    observedStatuses [⟨1, "a.mp4", 1, "queued"⟩]
        (process_video [⟨1, "a.mp4", 1, "queued"⟩] [⟨1, "alice"⟩] 1 true "" true true).2 1
      = ["queued", "completed"] ∧
    "processing" ∉ observedStatuses [⟨1, "a.mp4", 1, "queued"⟩]
        (process_video [⟨1, "a.mp4", 1, "queued"⟩] [⟨1, "alice"⟩] 1 true "" true true).2
        1 := by
  decide

/-- Characterisation of the three validation failures of `upload_video`:
invalid archive, readable archive without a qualifying member, unsupported
top-level extension. -/
theorem validateUpload_error_characterisation (up : Upload) :
    (validateUpload up = .error .invalidZip
      ↔ isZipName up.filename = true ∧ up.zipContent = none)
  ∧ (validateUpload up = .error .zipNoVideo
      ↔ isZipName up.filename = true
        ∧ ∃ names, up.zipContent = some names ∧ names.filter allowedName = [])
  ∧ (validateUpload up = .error .unsupportedFormat
      ↔ isZipName up.filename = false ∧ allowedName up.filename = false) := by
  by_cases hz : isZipName up.filename = true
  · cases hc : up.zipContent with
    | none => simp [validateUpload, hz, hc]
    | some names =>
      cases hm : names.filter allowedName with
      | nil =>
        simp [validateUpload, hz, hc, hm]
        intro a ha
        have h2 := List.filter_eq_nil_iff.mp hm
        simpa using h2 a ha
      | cons m rest =>
        simp [validateUpload, hz, hc, hm]
        have hmem : m ∈ names.filter allowedName := by
          rw [hm]
          exact List.mem_cons_self m rest
        have h2 := List.mem_filter.mp hmem
        exact ⟨m, h2.1, h2.2⟩
  · have hz' : isZipName up.filename = false := by simpa using hz
    by_cases ha : allowedName up.filename = true
    · simp [validateUpload, hz', ha]
    · have ha' : allowedName up.filename = false := by simpa using ha
      simp [validateUpload, hz', ha']

/-- C4 (amended): with the caller's user row present, submission fails with
a 400 validation error exactly when the artifact is a `.zip` that is not a
readable archive, a readable `.zip` with no member whose extension is
allowed, or a non-zip file with an unsupported extension; on every such
failure no job row is created, nothing is enqueued, and nothing is
extracted. -/
theorem validation_failure_characterisation (users : List User) (videos : List Video)
    (current_user : String) (up : Upload) (nextId : Nat) (user : User)
    (hu : users.find? (fun u => u.username == current_user) = some user) :
    ((upload_video true users videos current_user up nextId).response
        = .error .invalidZip
      ↔ isZipName up.filename = true ∧ up.zipContent = none)
  ∧ ((upload_video true users videos current_user up nextId).response
        = .error .zipNoVideo
      ↔ isZipName up.filename = true
        ∧ ∃ names, up.zipContent = some names ∧ names.filter allowedName = [])
  ∧ ((upload_video true users videos current_user up nextId).response
        = .error .unsupportedFormat
      ↔ isZipName up.filename = false ∧ allowedName up.filename = false)
  ∧ (∀ e, (upload_video true users videos current_user up nextId).response = .error e →
      (upload_video true users videos current_user up nextId).store = videos
      ∧ (upload_video true users videos current_user up nextId).effects = []
      ∧ (upload_video true users videos current_user up nextId).extracted = none) := by
  have hch := validateUpload_error_characterisation up
  have hresp : ∀ e : UploadError,
      ((upload_video true users videos current_user up nextId).response = .error e
        ↔ validateUpload up = .error e) := by
    intro e
    cases hval : validateUpload up with
    | error e2 => simp [upload_video, hu, hval]
    | ok fn => simp [upload_video, hu, hval]
  refine ⟨(hresp _).trans hch.1, (hresp _).trans hch.2.1, (hresp _).trans hch.2.2, ?_⟩
  intro e he
  rw [hresp e] at he
  simp [upload_video, hu, he]

theorem validation_failure_characterisation_witness :
    (([⟨1, "alice"⟩] : List User).find? (fun u => u.username == "alice")
      = some ⟨1, "alice"⟩) ∧
    ((upload_video true [⟨1, "alice"⟩] [] "alice" ⟨"broken.zip", none⟩ 7).response
        = .error .invalidZip
      ↔ isZipName "broken.zip" = true ∧ (none : Option (List String)) = none)
  ∧ ((upload_video true [⟨1, "alice"⟩] [] "alice" ⟨"broken.zip", none⟩ 7).response
        = .error .zipNoVideo
      ↔ isZipName "broken.zip" = true
        ∧ ∃ names, (none : Option (List String)) = some names
            ∧ names.filter allowedName = [])
  ∧ ((upload_video true [⟨1, "alice"⟩] [] "alice" ⟨"broken.zip", none⟩ 7).response
        = .error .unsupportedFormat
      ↔ isZipName "broken.zip" = false ∧ allowedName "broken.zip" = false)
  ∧ (∀ e, (upload_video true [⟨1, "alice"⟩] [] "alice" ⟨"broken.zip", none⟩ 7).response
        = .error e →
      (upload_video true [⟨1, "alice"⟩] [] "alice" ⟨"broken.zip", none⟩ 7).store = []
      ∧ (upload_video true [⟨1, "alice"⟩] [] "alice" ⟨"broken.zip", none⟩ 7).effects = []
      ∧ (upload_video true [⟨1, "alice"⟩] [] "alice" ⟨"broken.zip", none⟩ 7).extracted
          = none) := by
  refine ⟨by decide, ?_⟩
  exact validation_failure_characterisation [⟨1, "alice"⟩] [] "alice" ⟨"broken.zip", none⟩
    7 ⟨1, "alice"⟩ (by decide)

/-- C4 (counterexample): a `.zip` upload that is not a readable archive is
rejected with the 400 `invalidZip` failure — a validation failure distinct
from both failing cases the claim enumerates — with no job row created. -/
theorem invalid_zip_third_failure_cx :
    (upload_video true [⟨1, "alice"⟩] [] "alice" ⟨"broken.zip", none⟩ 7).response
      = .error .invalidZip ∧
    UploadError.invalidZip ≠ UploadError.zipNoVideo ∧
    UploadError.invalidZip ≠ UploadError.unsupportedFormat ∧
    (upload_video true [⟨1, "alice"⟩] [] "alice" ⟨"broken.zip", none⟩ 7).store = [] := by
  decide

/-- C7: for a readable archive with at least one member whose extension is
allowed, exactly the first such member (in archive order) is extracted, the
created job carries its basename as `source_reference` in state `queued`,
and the path the worker will read that job from is exactly the path the
member was extracted to. -/
theorem first_matching_member_extracted (cacheUp : Bool) (users : List User)
    (videos : List Video) (current_user : String) (up : Upload) (nextId : Nat)
    (user : User) (names : List String) (m : String) (rest : List String)
    (hu : users.find? (fun u => u.username == current_user) = some user)
    (hzip : isZipName up.filename = true)
    (hc : up.zipContent = some names)
    (hm : names.filter allowedName = m :: rest) :
    (upload_video cacheUp users videos current_user up nextId).extracted = some m ∧
    (upload_video cacheUp users videos current_user up nextId).response
      = .ok (nextId, "queued") ∧
    (upload_video cacheUp users videos current_user up nextId).store
      = videos ++ [⟨nextId, pyName m, user.id, "queued"⟩] ∧
    workerInputPath (pyName m) = extractionTargetPath m := by
  have hval : validateUpload up = .ok (pyName m) := by
    simp [validateUpload, hzip, hc, hm]
  have hext : extractedMember up = some m := by
    simp only [extractedMember, hzip, if_true, hc, Option.some_bind, hm, List.head?_cons]
  refine ⟨?_, ?_, ?_, rfl⟩
  · simp [upload_video, hu, hval, hext]
  · simp [upload_video, hu, hval]
  · simp [upload_video, hu, hval, VIDEO_INITIAL_STATUS]

theorem first_matching_member_extracted_witness :
    (([⟨1, "alice"⟩] : List User).find? (fun u => u.username == "alice")
        = some ⟨1, "alice"⟩
      ∧ isZipName "v.zip" = true
      ∧ (some ["readme.txt", "clip.mp4", "other.mov"] : Option (List String))
          = some ["readme.txt", "clip.mp4", "other.mov"]
      ∧ (["readme.txt", "clip.mp4", "other.mov"] : List String).filter allowedName
          = ["clip.mp4", "other.mov"]) ∧
    (upload_video true [⟨1, "alice"⟩] [] "alice"
        ⟨"v.zip", some ["readme.txt", "clip.mp4", "other.mov"]⟩ 3).extracted
      = some "clip.mp4" ∧
    (upload_video true [⟨1, "alice"⟩] [] "alice"
        ⟨"v.zip", some ["readme.txt", "clip.mp4", "other.mov"]⟩ 3).response
      = .ok (3, "queued") ∧
    (upload_video true [⟨1, "alice"⟩] [] "alice"
        ⟨"v.zip", some ["readme.txt", "clip.mp4", "other.mov"]⟩ 3).store
      = [⟨3, pyName "clip.mp4", 1, "queued"⟩] ∧
    workerInputPath (pyName "clip.mp4") = extractionTargetPath "clip.mp4" := by
  refine ⟨⟨by decide, by decide, rfl, by decide⟩, ?_⟩
  exact first_matching_member_extracted true [⟨1, "alice"⟩] [] "alice"
    ⟨"v.zip", some ["readme.txt", "clip.mp4", "other.mov"]⟩ 3 ⟨1, "alice"⟩
    ["readme.txt", "clip.mp4", "other.mov"] "clip.mp4" ["other.mov"]
    (by decide) (by decide) rfl (by decide)

/-- Splitting never produces an empty list of components. -/
theorem splitSlash_ne_nil (s : List Char) : splitSlash s ≠ [] := by
  cases s with
  | nil => simp [splitSlash]
  | cons c cs => by_cases hc : c = '/' <;> simp [splitSlash, hc]

/-- No component produced by splitting at slashes contains a slash. -/
theorem mem_splitSlash_no_slash (s : List Char) (p : List Char)
    (hp : p ∈ splitSlash s) : '/' ∉ p := by
  induction s generalizing p with
  | nil =>
    simp only [splitSlash, List.mem_singleton] at hp
    simp [hp]
  | cons c cs ih =>
    simp only [splitSlash] at hp
    by_cases hc : c = '/'
    · rw [if_pos hc] at hp
      rcases List.mem_cons.mp hp with hp | hp
      · simp [hp]
      · exact ih p hp
    · rw [if_neg hc] at hp
      cases h : splitSlash cs with
      | nil => exact absurd h (splitSlash_ne_nil cs)
      | cons q qs =>
        rw [h] at hp
        rcases List.mem_cons.mp hp with hp | hp
        · subst hp
          intro hmem
          rcases List.mem_cons.mp hmem with hmem | hmem
          · exact hc hmem.symm
          · exact ih q (h ▸ List.mem_cons_self q qs) (by simpa using hmem)
        · exact ih p (h ▸ List.mem_cons.mpr (Or.inr (by simpa using hp)))

/-- A nonempty `pathlib` name is one of the retained path components. -/
theorem pyNameChars_mem_or_nil (s : List Char) :
    pyNameChars s = [] ∨ pyNameChars s ∈ pyParts s := by
  unfold pyNameChars
  cases h : (pyParts s).getLast? with
  | none => simp
  | some a =>
    right
    simp only [Option.getD_some]
    exact List.mem_of_mem_getLast? h

/-- A name with a nonempty suffix has at least three characters (the suffix
dot sits strictly inside the name). -/
theorem name_long_of_suffix_ne_nil (s : List Char) (h : pySuffixChars s ≠ []) :
    2 < (pyNameChars s).length := by
  by_cases hc : ∃ i, rfindDot (pyNameChars s) = some i ∧ 0 < i
      ∧ i + 1 < (pyNameChars s).length
  · obtain ⟨i, _, hlt⟩ := hc
    omega
  · exfalso
    apply h
    unfold pySuffixChars
    cases hr : rfindDot (pyNameChars s) with
    | none => rfl
    | some i =>
      show (if 0 < i ∧ i + 1 < (pyNameChars s).length
          then (pyNameChars s).drop i else []) = []
      rw [if_neg]
      intro hcontra
      exact hc ⟨i, hr, hcontra.1, hcontra.2⟩

/-- An allowed extension forces a nonempty suffix. -/
theorem suffix_ne_nil_of_allowed (m : String) (hA : allowedName m = true) :
    pySuffixChars m.data ≠ [] := by
  intro hnil
  unfold allowedName pySuffixLower at hA
  rw [hnil] at hA
  exact absurd hA (by decide)

/-- C9: for every archive member whose suffix passes the allow-list filter
(the precondition for it to be extracted), the extraction target is the
upload directory joined with the member's basename only: that basename
contains no slash and is neither empty, `.` nor `..`, so the normalised
write path stays directly under `uploads` even when the member name carries
directory components or parent-directory segments. -/
theorem extraction_confined_to_upload_dir (m : String) (hA : allowedName m = true) :
    ('/' ∉ pyNameChars m.data ∧ pyNameChars m.data ≠ [] ∧ pyNameChars m.data ≠ ['.']
      ∧ pyNameChars m.data ≠ ['.', '.']) ∧
    (pyName m).data = pyNameChars m.data ∧
    normPath (extractionTargetComps m) = [UPLOAD_DIR.data, pyNameChars m.data] := by
  have hsuf := suffix_ne_nil_of_allowed m hA
  have hlen := name_long_of_suffix_ne_nil m.data hsuf
  have hmem : pyNameChars m.data ∈ pyParts m.data := by
    rcases pyNameChars_mem_or_nil m.data with h | h
    · rw [h] at hlen
      simp at hlen
    · exact h
  have hslash : '/' ∉ pyNameChars m.data := by
    have h1 := (List.mem_filter.mp hmem).1
    exact mem_splitSlash_no_slash m.data _ h1
  have h1 : pyNameChars m.data ≠ [] := by
    intro h
    rw [h] at hlen
    simp at hlen
  have h2 : pyNameChars m.data ≠ ['.'] := by
    intro h
    rw [h] at hlen
    simp at hlen
  have h3 : pyNameChars m.data ≠ ['.', '.'] := by
    intro h
    rw [h] at hlen
    simp at hlen
  refine ⟨⟨hslash, h1, h2, h3⟩, rfl, ?_⟩
  show normAux [] [UPLOAD_DIR.data, pyNameChars m.data]
    = [UPLOAD_DIR.data, pyNameChars m.data]
  rw [normAux, if_neg (by decide), if_neg (by decide), if_neg (by decide),
    normAux, if_neg h1, if_neg h2, if_neg h3, normAux]
  rfl

theorem extraction_confined_to_upload_dir_witness :
    allowedName "../../etc/shadow.mp4" = true ∧
    ('/' ∉ pyNameChars "../../etc/shadow.mp4".data
      ∧ pyNameChars "../../etc/shadow.mp4".data ≠ []
      ∧ pyNameChars "../../etc/shadow.mp4".data ≠ ['.']
      ∧ pyNameChars "../../etc/shadow.mp4".data ≠ ['.', '.']) ∧
    (pyName "../../etc/shadow.mp4").data = pyNameChars "../../etc/shadow.mp4".data ∧
    normPath (extractionTargetComps "../../etc/shadow.mp4")
      = [UPLOAD_DIR.data, pyNameChars "../../etc/shadow.mp4".data] := by
  refine ⟨by decide, ?_⟩
  exact extraction_confined_to_upload_dir "../../etc/shadow.mp4" (by decide)

end VideoService
